import Mathlib

/-!
Verification of `csv_to_json.py`, a single-pass converter from a tabular
Korean vocabulary CSV to a JSON array of records.

Embedding notes.
A cell value, as it appears after `pd.read_csv`, is `Cell`: `na` is the
NaN missing-value marker pandas uses for absent or empty cells, `str` a
textual cell, `int` a numeric cell (an integral float behaves as its
integer under Python `int()` and is modelled by `int`).  A row is an
association list from column name to cell; `row[c]` in pandas raises a
`KeyError` when the column is absent, modelled by `getC`.  The input file
is `Option (List Row)`: `none` models a missing input file
(`pd.read_csv` raising `FileNotFoundError`).  `mkEntry` embeds the dict
literal built for each row, with the columns accessed in the source
order (Word, English, Hanja/Ref., Classification, Frequency Rank, then
the `int` conversion, Complexity, Wordreference Link, Wiktionary Link),
and the first raised error aborting the row.  `buildResult` embeds the
`for` loop appending to `result`, `run` the whole read-and-map phase and
`jsonDump` the call `json.dump(result, f, ensure_ascii=False, indent=2)`.
`writeOutput` is the content written to `topik_vocab.json`: `none` when
the run raises before reaching the `open`, so that nothing is written.
-/

/-- A cell value after `pd.read_csv`: the NaN marker for a missing or
empty cell, a string cell, or an integer cell. -/
inductive Cell
  | na
  | str (s : String)
  | int (n : Int)
  deriving DecidableEq, Repr

/-- A JSON value as produced by the script: `null` (Python `None`),
`nan` (a float NaN carried through into the dump), a string, or an
integer. -/
inductive JVal
  | null
  | nan
  | jstr (s : String)
  | jint (n : Int)
  deriving DecidableEq, Repr

/-- A row of the input table: an association list from column name to
cell value. -/
abbrev Row := List (String × Cell)

/-- An output record: an association list from key to JSON value, in
insertion order (Python dicts preserve insertion order). -/
abbrev Entry := List (String × JVal)

/-- The errors the script can raise: `FileNotFoundError` from
`pd.read_csv`, `KeyError` from `row[c]` on an absent column, and
`ValueError`/`TypeError` from `int(...)` on a non-numeric value. -/
inductive Err
  | fileNotFound
  | keyError (col : String)
  | typeError
  deriving DecidableEq, Repr

/-- Look a column up in a row, `none` when the column is absent. -/
def getCol (r : Row) (c : String) : Option Cell :=
  match r.find? (fun p => p.1 == c) with
  | some p => some p.2
  | none => none

/-- Embeds `row[c]`: the cell when the column is present, a `KeyError`
naming the column otherwise. -/
def getC (row : Row) (c : String) : Except Err Cell :=
  match getCol row c with
  | some v => Except.ok v
  | none => Except.error (Err.keyError c)

/-- Embeds `pd.isna` on a cell: true exactly on the NaN marker. -/
def Cell.isna : Cell → Bool
  | .na => true
  | _ => false

/-- Embeds a JSON-encodable view of a cell: NaN stays the NaN marker,
strings and integers pass through unchanged. -/
def Cell.toJVal : Cell → JVal
  | .na => JVal.nan
  | .str s => JVal.jstr s
  | .int n => JVal.jint n

/-- Strip leading and trailing whitespace from a character list, as
Python `int()` does on its string argument. -/
def stripWS (cs : List Char) : List Char :=
  ((cs.dropWhile (fun c => c.isWhitespace)).reverse.dropWhile
    (fun c => c.isWhitespace)).reverse

/-- Parse a non-empty all-digit character list as a natural number. -/
def parseDigits (cs : List Char) : Option Nat :=
  match cs with
  | [] => none
  | _ =>
    if cs.all (fun c => c.isDigit) then
      some (cs.foldl (fun a c => a * 10 + (c.toNat - 48)) 0)
    else none

/-- Embeds Python `int()` on a string: optional surrounding whitespace,
an optional sign, then decimal digits; anything else raises.  (Underscore
grouping and non-ASCII digits are not modelled.) -/
def pyIntOfString (s : String) : Option Int :=
  match stripWS s.data with
  | '+' :: rest => (parseDigits rest).map Int.ofNat
  | '-' :: rest => (parseDigits rest).map (fun n => -(Int.ofNat n))
  | cs => (parseDigits cs).map Int.ofNat

/-- Embeds Python `int()` on a cell: an integer passes through, NaN
raises (`cannot convert float NaN to integer`), a string is parsed as an
integer literal. -/
def Cell.pyInt : Cell → Option Int
  | .na => none
  | .int n => some n
  | .str s => pyIntOfString s

/-- Embeds `int(row["Frequency Rank"])` once the cell is in hand: a
type-conversion error when the value is not numeric. -/
def toInt (c : Cell) : Except Err Int :=
  match c.pyInt with
  | some n => Except.ok n
  | none => Except.error Err.typeError

/-- Embeds the dict literal `entry` built for one row, evaluating the
cell accesses in source order and aborting at the first error. -/
def mkEntry (row : Row) : Except Err Entry :=
  (getC row "Word").bind fun word =>
  (getC row "English").bind fun en =>
  (getC row "Hanja/Ref.").bind fun hanja =>
  (getC row "Classification").bind fun cls =>
  (getC row "Frequency Rank").bind fun fc =>
  (toInt fc).bind fun freq =>
  (getC row "Complexity").bind fun cx =>
  (getC row "Wordreference Link").bind fun wref =>
  (getC row "Wiktionary Link").bind fun wik =>
  Except.ok
    [("korean", word.toJVal), ("en", en.toJVal), ("zh", JVal.null),
     ("hanja", if hanja.isna then JVal.null else hanja.toJVal),
     ("classification", cls.toJVal), ("frequency", JVal.jint freq),
     ("complexity", cx.toJVal), ("wordreferencelink", wref.toJVal),
     ("wiktionarylink", wik.toJVal)]

/-- Embeds the `for _, row in df.iterrows()` loop appending each `entry`
to `result`; the first error aborts the loop. -/
def buildResult : List Row → Except Err (List Entry)
  | [] => Except.ok []
  | r :: rs =>
    (mkEntry r).bind fun e => (buildResult rs).bind fun es =>
      Except.ok (e :: es)

/-- The read-and-map phase of the script on an input file: a missing
file raises `FileNotFoundError`, otherwise the rows are mapped in
order. -/
def run : Option (List Row) → Except Err (List Entry)
  | none => Except.error Err.fileNotFound
  | some rows => buildResult rows

/-- Look a key up in an output record. -/
def fieldVal (e : Entry) (k : String) : Option JVal :=
  match e.find? (fun p => p.1 == k) with
  | some p => some p.2
  | none => none

/-- A run of `n` spaces, for JSON indentation. -/
def spaces (n : Nat) : String :=
  String.mk (List.replicate n ' ')

/-- One lowercase hexadecimal digit. -/
def hexDigit (n : Nat) : Char :=
  if n < 10 then Char.ofNat (48 + n) else Char.ofNat (87 + n)

/-- Embeds the per-character escaping of Python `json` with
`ensure_ascii=False`: only the quote, the backslash and control
characters below U+0020 are escaped; every other character, non-ASCII
included, is emitted literally. -/
def escapeChar (c : Char) : List Char :=
  if c = '"' then ['\\', '"']
  else if c = '\\' then ['\\', '\\']
  else if c = '\n' then ['\\', 'n']
  else if c = '\r' then ['\\', 'r']
  else if c = '\t' then ['\\', 't']
  else if c = '\x08' then ['\\', 'b']
  else if c = '\x0c' then ['\\', 'f']
  else if c.toNat < 32 then
    ['\\', 'u', '0', '0', hexDigit (c.toNat / 16), hexDigit (c.toNat % 16)]
  else [c]

/-- Serialize a JSON string: escaped characters between double quotes. -/
def encodeString (s : String) : String :=
  String.mk ('"' :: s.data.foldr (fun c acc => escapeChar c ++ acc) ['"'])

/-- Serialize a scalar JSON value as Python `json` renders it. -/
def JVal.render : JVal → String
  | .null => "null"
  | .nan => "NaN"
  | .jstr s => encodeString s
  | .jint n => toString n

/-- Serialize one record as a JSON object at indentation `ind`, keys in
insertion order, `indent=2` style: each member on its own line. -/
def renderObj (ind : Nat) (e : Entry) : String :=
  match e with
  | [] => "\x7b\x7d"
  | _ =>
    "\x7b\n" ++
      String.intercalate ",\n"
        (e.map (fun p =>
          spaces (ind + 2) ++ encodeString p.1 ++ ": " ++ JVal.render p.2)) ++
      "\n" ++ spaces ind ++ "\x7d"

/-- Embeds `json.dump(result, f, ensure_ascii=False, indent=2)`: the
text written for the whole record list. -/
def jsonDump (es : List Entry) : String :=
  match es with
  | [] => "[]"
  | _ =>
    "[\n" ++
      String.intercalate ",\n" (es.map (fun e => "  " ++ renderObj 2 e)) ++
      "\n]"

/-- The content written to `topik_vocab.json`: the dump on success,
nothing at all when the run raises before the `open`. -/
def writeOutput (inp : Option (List Row)) : Option String :=
  match run inp with
  | Except.ok es => some (jsonDump es)
  | Except.error _ => none

/-- The eight recognized input columns, in access order. -/
def expectedCols : List String :=
  ["Word", "English", "Hanja/Ref.", "Classification", "Frequency Rank",
   "Complexity", "Wordreference Link", "Wiktionary Link"]

/-- The output keys in the order the dict literal inserts them. -/
def keyOrder : List String :=
  ["korean", "en", "zh", "hanja", "classification", "frequency",
   "complexity", "wordreferencelink", "wiktionarylink"]

/-- The input columns that are passed through with no missing-to-null
mapping, paired with the output key each feeds. -/
def passthroughPairs : List (String × String) :=
  [("Word", "korean"), ("English", "en"),
   ("Classification", "classification"), ("Complexity", "complexity"),
   ("Wordreference Link", "wordreferencelink"),
   ("Wiktionary Link", "wiktionarylink")]

/-- The sample row of the spec scenario: `Hanja/Ref.` empty (hence the
NaN marker after `pd.read_csv`), `Frequency Rank` the text "1". -/
def sampleRow : Row :=
  [("Word", Cell.str "안녕"), ("English", Cell.str "hello"),
   ("Hanja/Ref.", Cell.na), ("Classification", Cell.str "greeting"),
   ("Frequency Rank", Cell.str "1"), ("Complexity", Cell.str "A1"),
   ("Wordreference Link", Cell.str "http://x"),
   ("Wiktionary Link", Cell.str "http://y")]

/-- The record the script produces for `sampleRow`. -/
def sampleEntry : Entry :=
  [("korean", JVal.jstr "안녕"), ("en", JVal.jstr "hello"),
   ("zh", JVal.null), ("hanja", JVal.null),
   ("classification", JVal.jstr "greeting"), ("frequency", JVal.jint 1),
   ("complexity", JVal.jstr "A1"), ("wordreferencelink", JVal.jstr "http://x"),
   ("wiktionarylink", JVal.jstr "http://y")]

/-- The sample row with a present `Hanja/Ref.` cell. -/
def sampleRow2 : Row :=
  [("Word", Cell.str "안녕"), ("English", Cell.str "hello"),
   ("Hanja/Ref.", Cell.str "安寧"), ("Classification", Cell.str "greeting"),
   ("Frequency Rank", Cell.str "1"), ("Complexity", Cell.str "A1"),
   ("Wordreference Link", Cell.str "http://x"),
   ("Wiktionary Link", Cell.str "http://y")]

/-- The record the script produces for `sampleRow2`. -/
def sampleEntry2 : Entry :=
  [("korean", JVal.jstr "안녕"), ("en", JVal.jstr "hello"),
   ("zh", JVal.null), ("hanja", JVal.jstr "安寧"),
   ("classification", JVal.jstr "greeting"), ("frequency", JVal.jint 1),
   ("complexity", JVal.jstr "A1"), ("wordreferencelink", JVal.jstr "http://x"),
   ("wiktionarylink", JVal.jstr "http://y")]

/-- The sample row extended with an unrecognized ninth column. -/
def sampleRowExtra : Row :=
  sampleRow ++ [("Extra", Cell.str "ignored")]

/-- A row whose only cell is a non-numeric `Frequency Rank`; every
other expected column is absent. -/
def rowX : Row :=
  [("Frequency Rank", Cell.str "abc")]

/-- A row with a `Word` cell and a non-numeric `Frequency Rank`, but no
`English` column. -/
def rowY : Row :=
  [("Word", Cell.str "가"), ("Frequency Rank", Cell.str "oops")]

/-- A complete row whose `Frequency Rank` cell is present but
non-numeric. -/
def rowZ : Row :=
  [("Word", Cell.str "물"), ("English", Cell.str "water"),
   ("Hanja/Ref.", Cell.str "水"), ("Classification", Cell.str "noun"),
   ("Frequency Rank", Cell.str "n/a"), ("Complexity", Cell.str "A1"),
   ("Wordreference Link", Cell.str "http://w"),
   ("Wiktionary Link", Cell.str "http://k")]

/-- A complete row whose `Word` cell is the NaN missing-value marker. -/
def rowW : Row :=
  [("Word", Cell.na), ("English", Cell.str "e"),
   ("Hanja/Ref.", Cell.str "h"), ("Classification", Cell.str "c"),
   ("Frequency Rank", Cell.int 7), ("Complexity", Cell.str "x"),
   ("Wordreference Link", Cell.str "w"), ("Wiktionary Link", Cell.str "k")]

/-- The record the script produces for `rowW`: the NaN marker of the
missing `Word` cell is carried through to `korean` unchanged. -/
def entryW : Entry :=
  [("korean", JVal.nan), ("en", JVal.jstr "e"), ("zh", JVal.null),
   ("hanja", JVal.jstr "h"), ("classification", JVal.jstr "c"),
   ("frequency", JVal.jint 7), ("complexity", JVal.jstr "x"),
   ("wordreferencelink", JVal.jstr "w"), ("wiktionarylink", JVal.jstr "k")]

/-- The exact text `json.dump` writes for the one-row sample table:
2-space indentation, keys in insertion order, the Korean text emitted
literally. -/
def sampleJson : String :=
  "[\n  \x7b\n    \"korean\": \"안녕\",\n    \"en\": \"hello\",\n    \"zh\": null,\n    \"hanja\": null,\n    \"classification\": \"greeting\",\n    \"frequency\": 1,\n    \"complexity\": \"A1\",\n    \"wordreferencelink\": \"http://x\",\n    \"wiktionarylink\": \"http://y\"\n  \x7d\n]"

lemma except_bind_ok {α β : Type} (x : Except Err α) (f : α → Except Err β)
    (b : β) : x.bind f = Except.ok b ↔ ∃ a, x = Except.ok a ∧ f a = Except.ok b := by
  cases x <;> simp [Except.bind]

lemma except_bind_err {α β : Type} (x : Except Err α) (f : α → Except Err β)
    (er : Err) : x.bind f = Except.error er ↔
      x = Except.error er ∨ ∃ a, x = Except.ok a ∧ f a = Except.error er := by
  cases x <;> simp [Except.bind]

lemma getC_ok (row : Row) (c : String) (v : Cell) :
    getC row c = Except.ok v ↔ getCol row c = some v := by
  unfold getC
  cases h : getCol row c <;> simp

lemma getC_err (row : Row) (c : String) (er : Err) :
    getC row c = Except.error er ↔ getCol row c = none ∧ er = Err.keyError c := by
  unfold getC
  cases h : getCol row c <;> simp
  exact eq_comm

lemma toInt_ok (c : Cell) (n : Int) :
    toInt c = Except.ok n ↔ c.pyInt = some n := by
  unfold toInt
  cases h : c.pyInt <;> simp

lemma toInt_err (c : Cell) (er : Err) :
    toInt c = Except.error er ↔ c.pyInt = none ∧ er = Err.typeError := by
  unfold toInt
  cases h : c.pyInt <;> simp
  exact eq_comm

/-- Inversion of a successful row mapping: every expected column is
present, the frequency cell converts, and the record has the literal
shape the dict literal gives it. -/
lemma mkEntry_ok_shape (row : Row) (e : Entry) (h : mkEntry row = Except.ok e) :
    ∃ w en hj cl fc n cx wr wk,
      getCol row "Word" = some w ∧ getCol row "English" = some en ∧
      getCol row "Hanja/Ref." = some hj ∧
      getCol row "Classification" = some cl ∧
      getCol row "Frequency Rank" = some fc ∧ Cell.pyInt fc = some n ∧
      getCol row "Complexity" = some cx ∧
      getCol row "Wordreference Link" = some wr ∧
      getCol row "Wiktionary Link" = some wk ∧
      e = [("korean", w.toJVal), ("en", en.toJVal), ("zh", JVal.null),
           ("hanja", if hj.isna then JVal.null else hj.toJVal),
           ("classification", cl.toJVal), ("frequency", JVal.jint n),
           ("complexity", cx.toJVal), ("wordreferencelink", wr.toJVal),
           ("wiktionarylink", wk.toJVal)] := by
  simp only [mkEntry, except_bind_ok, getC_ok, toInt_ok, Except.ok.injEq] at h
  obtain ⟨w, hw, en, hen, hj, hhj, cl, hcl, fc, hfc, n, hn, cx, hcx, wr, hwr,
    wk, hwk, he⟩ := h
  exact ⟨w, en, hj, cl, fc, n, cx, wr, wk, hw, hen, hhj, hcl, hfc, hn, hcx,
    hwr, hwk, he.symm⟩

/-- Inversion of a failed row mapping: either a `KeyError` on one of the
eight expected columns, absent from the row, or a type-conversion error
on a present but non-numeric frequency cell. -/
lemma mkEntry_error_cases (row : Row) (er : Err)
    (h : mkEntry row = Except.error er) :
    (∃ c, er = Err.keyError c ∧ c ∈ expectedCols ∧ getCol row c = none) ∨
    (er = Err.typeError ∧
      ∃ fc, getCol row "Frequency Rank" = some fc ∧ fc.pyInt = none) := by
  simp only [mkEntry, except_bind_err, getC_err, getC_ok, toInt_err] at h
  rcases h with ⟨hc, rfl⟩ | ⟨w, hw, h⟩
  · exact Or.inl ⟨"Word", rfl, by simp [expectedCols], hc⟩
  rcases h with ⟨hc, rfl⟩ | ⟨en, hen, h⟩
  · exact Or.inl ⟨"English", rfl, by simp [expectedCols], hc⟩
  rcases h with ⟨hc, rfl⟩ | ⟨hj, hhj, h⟩
  · exact Or.inl ⟨"Hanja/Ref.", rfl, by simp [expectedCols], hc⟩
  rcases h with ⟨hc, rfl⟩ | ⟨cl, hcl, h⟩
  · exact Or.inl ⟨"Classification", rfl, by simp [expectedCols], hc⟩
  rcases h with ⟨hc, rfl⟩ | ⟨fc, hfc, h⟩
  · exact Or.inl ⟨"Frequency Rank", rfl, by simp [expectedCols], hc⟩
  rcases h with ⟨hn, rfl⟩ | ⟨n, hn, h⟩
  · exact Or.inr ⟨rfl, fc, hfc, hn⟩
  rcases h with ⟨hc, rfl⟩ | ⟨cx, hcx, h⟩
  · exact Or.inl ⟨"Complexity", rfl, by simp [expectedCols], hc⟩
  rcases h with ⟨hc, rfl⟩ | ⟨wr, hwr, h⟩
  · exact Or.inl ⟨"Wordreference Link", rfl, by simp [expectedCols], hc⟩
  rcases h with ⟨hc, rfl⟩ | ⟨wk, hwk, h⟩
  · exact Or.inl ⟨"Wiktionary Link", rfl, by simp [expectedCols], hc⟩
  simp at h

/-- A successful row mapping needs a present, numeric frequency cell. -/
lemma mkEntry_ok_pyInt (row : Row) (e : Entry) (h : mkEntry row = Except.ok e)
    (fc : Cell) (hfc : getCol row "Frequency Rank" = some fc) :
    ∃ n, fc.pyInt = some n := by
  obtain ⟨w, en, hj, cl, fc', n, cx, wr, wk, _, _, _, _, hfc', hn, _⟩ :=
    mkEntry_ok_shape row e h
  rw [hfc] at hfc'
  cases hfc'
  exact ⟨n, hn⟩

lemma buildResult_ok (rows : List Row) (es : List Entry)
    (h : buildResult rows = Except.ok es) :
    es.length = rows.length ∧
      ∀ (i : Nat) (h1 : i < rows.length) (h2 : i < es.length),
        mkEntry (rows.get ⟨i, h1⟩) = Except.ok (es.get ⟨i, h2⟩) := by
  induction rows generalizing es with
  | nil =>
    simp only [buildResult, Except.ok.injEq] at h
    subst h
    exact ⟨rfl, fun i h1 => absurd h1 (Nat.not_lt_zero i)⟩
  | cons r rs ih =>
    simp only [buildResult, except_bind_ok, Except.ok.injEq] at h
    obtain ⟨e, he, es', hes', hcons⟩ := h
    subst hcons
    obtain ⟨hlen, hpt⟩ := ih es' hes'
    refine ⟨by simp [hlen], ?_⟩
    intro i h1 h2
    cases i with
    | zero => exact he
    | succ j =>
      exact hpt j (Nat.lt_of_succ_lt_succ h1) (Nat.lt_of_succ_lt_succ h2)

lemma buildResult_mem (rows : List Row) (es : List Entry)
    (h : buildResult rows = Except.ok es) (e : Entry) (he : e ∈ es) :
    ∃ r ∈ rows, mkEntry r = Except.ok e := by
  induction rows generalizing es with
  | nil =>
    simp only [buildResult, Except.ok.injEq] at h
    subst h
    simp at he
  | cons r rs ih =>
    simp only [buildResult, except_bind_ok, Except.ok.injEq] at h
    obtain ⟨e', he', es', hes', hcons⟩ := h
    subst hcons
    rcases List.mem_cons.mp he with rfl | hmem
    · exact ⟨r, List.mem_cons_self r rs, he'⟩
    · obtain ⟨r', hr', hok⟩ := ih es' hes' hmem
      exact ⟨r', List.mem_cons_of_mem r hr', hok⟩

lemma buildResult_ok_of_mem (rows : List Row) (es : List Entry)
    (h : buildResult rows = Except.ok es) (r : Row) (hr : r ∈ rows) :
    ∃ e, mkEntry r = Except.ok e := by
  induction rows generalizing es with
  | nil => simp at hr
  | cons r' rs ih =>
    simp only [buildResult, except_bind_ok, Except.ok.injEq] at h
    obtain ⟨e, he, es', hes', _⟩ := h
    rcases List.mem_cons.mp hr with rfl | hmem
    · exact ⟨e, he⟩
    · exact ih es' hes' hmem

lemma buildResult_error (rows : List Row) (er : Err)
    (h : buildResult rows = Except.error er) :
    ∃ r ∈ rows, mkEntry r = Except.error er := by
  induction rows with
  | nil => simp [buildResult] at h
  | cons r rs ih =>
    simp only [buildResult, except_bind_err] at h
    rcases h with he | ⟨e, _, h⟩
    · exact ⟨r, List.mem_cons_self r rs, he⟩
    · rcases h with hrs | ⟨es, _, hfalse⟩
      · obtain ⟨r', hr', h'⟩ := ih hrs
        exact ⟨r', List.mem_cons_of_mem r hr', h'⟩
      · exact absurd hfalse (by simp)

lemma buildResult_first_error (pre rest : List Row) (r : Row) (er : Err)
    (hpre : ∀ r' ∈ pre, ∃ e, mkEntry r' = Except.ok e)
    (hre : mkEntry r = Except.error er) :
    buildResult (pre ++ r :: rest) = Except.error er := by
  induction pre with
  | nil => simp [buildResult, hre, Except.bind]
  | cons p ps ih =>
    obtain ⟨e, he⟩ := hpre p (List.mem_cons_self p ps)
    have ih' := ih (fun r' hr' => hpre r' (List.mem_cons_of_mem p hr'))
    simp [buildResult, he, Except.bind, ih']

/-- The row mapping reads only the eight recognized columns: rows that
agree on them map identically. -/
lemma mkEntry_congr (r1 r2 : Row)
    (h : ∀ c ∈ expectedCols, getCol r1 c = getCol r2 c) :
    mkEntry r1 = mkEntry r2 := by
  have h1 := h "Word" (by simp [expectedCols])
  have h2 := h "English" (by simp [expectedCols])
  have h3 := h "Hanja/Ref." (by simp [expectedCols])
  have h4 := h "Classification" (by simp [expectedCols])
  have h5 := h "Frequency Rank" (by simp [expectedCols])
  have h6 := h "Complexity" (by simp [expectedCols])
  have h7 := h "Wordreference Link" (by simp [expectedCols])
  have h8 := h "Wiktionary Link" (by simp [expectedCols])
  simp only [mkEntry, getC, h1, h2, h3, h4, h5, h6, h7, h8]

lemma buildResult_congr (rows1 rows2 : List Row)
    (h : List.Forall₂
      (fun r1 r2 => ∀ c ∈ expectedCols, getCol r1 c = getCol r2 c)
      rows1 rows2) :
    buildResult rows1 = buildResult rows2 := by
  induction h with
  | nil => rfl
  | cons hr _ ih =>
    simp only [buildResult]
    rw [mkEntry_congr _ _ hr, ih]

lemma nan_ne_null (o : Option JVal) (h : o = some JVal.nan) :
    o ≠ some JVal.null := by
  subst h
  intro hbad
  exact JVal.noConfusion (Option.some.inj hbad)

/-- A character at or above U+0080 is left unescaped by the
`ensure_ascii=False` encoder. -/
lemma escapeChar_nonascii (c : Char) (h : 128 ≤ c.toNat) :
    escapeChar c = [c] := by
  have hq : c ≠ '"' := by rintro rfl; revert h; decide
  have hb : c ≠ '\\' := by rintro rfl; revert h; decide
  have hn : c ≠ '\n' := by rintro rfl; revert h; decide
  have hr : c ≠ '\r' := by rintro rfl; revert h; decide
  have ht : c ≠ '\t' := by rintro rfl; revert h; decide
  have h8 : c ≠ '\x08' := by rintro rfl; revert h; decide
  have hc : c ≠ '\x0c' := by rintro rfl; revert h; decide
  have h32 : ¬ c.toNat < 32 := by omega
  simp [escapeChar, hq, hb, hn, hr, ht, h8, hc, h32]

lemma foldr_escape_mem (cs : List Char) (c : Char) (hc : c ∈ cs)
    (h : 128 ≤ c.toNat) :
    c ∈ cs.foldr (fun d acc => escapeChar d ++ acc) ['"'] := by
  induction cs with
  | nil => simp at hc
  | cons d ds ih =>
    rcases List.mem_cons.mp hc with rfl | hmem
    · show c ∈ escapeChar c ++ ds.foldr (fun d acc => escapeChar d ++ acc) ['"']
      rw [escapeChar_nonascii c h]
      exact List.mem_cons_self c _
    · show c ∈ escapeChar d ++ ds.foldr (fun d acc => escapeChar d ++ acc) ['"']
      exact List.mem_append.mpr (Or.inr (ih hmem))

/-- A non-ASCII character of a source string survives literally into its
serialized form. -/
lemma encodeString_mem (s : String) (c : Char) (hc : c ∈ s.data)
    (h : 128 ≤ c.toNat) : c ∈ (encodeString s).data := by
  show c ∈ '"' :: s.data.foldr (fun d acc => escapeChar d ++ acc) ['"']
  exact List.mem_cons_of_mem _ (foldr_escape_mem s.data c hc h)

/-- C8: on the empty table (header only, zero data rows) the run
succeeds and the output file contains exactly the empty JSON array. -/
theorem empty_table_output :
    run (some []) = Except.ok [] ∧ writeOutput (some []) = some "[]" :=
  ⟨rfl, rfl⟩

/-- C1: a successful run yields exactly one record per input row, and
the record at each position is the one mapped from the row at the same
position. -/
theorem row_count_and_order (rows : List Row) (es : List Entry)
    (h : run (some rows) = Except.ok es) :
    es.length = rows.length ∧
      ∀ (i : Nat) (h1 : i < rows.length) (h2 : i < es.length),
        mkEntry (rows.get ⟨i, h1⟩) = Except.ok (es.get ⟨i, h2⟩) :=
  buildResult_ok rows es h

theorem row_count_and_order_witness :
    ([sampleEntry].length = [sampleRow].length) ∧
      mkEntry ([sampleRow].get ⟨0, by decide⟩) =
        Except.ok ([sampleEntry].get ⟨0, by decide⟩) := by
  obtain ⟨h1, h2⟩ := row_count_and_order [sampleRow] [sampleEntry] rfl
  exact ⟨h1, h2 0 (by decide) (by decide)⟩

/-- C6: the `zh` field of every record of a successful run is null. -/
theorem zh_always_null (rows : List Row) (es : List Entry)
    (h : run (some rows) = Except.ok es) (e : Entry) (he : e ∈ es) :
    fieldVal e "zh" = some JVal.null := by
  obtain ⟨r, _, hok⟩ := buildResult_mem rows es h e he
  obtain ⟨w, en, hj, cl, fc, n, cx, wr, wk, _, _, _, _, _, _, _, _, _, rfl⟩ :=
    mkEntry_ok_shape r e hok
  rfl

theorem zh_always_null_witness :
    fieldVal sampleEntry "zh" = some JVal.null :=
  zh_always_null [sampleRow] [sampleEntry] rfl sampleEntry (by decide)

/-- C3: on a successfully mapped row, the `hanja` field is null exactly
when the `Hanja/Ref.` cell is the missing-value marker, and otherwise
carries the raw cell value unchanged. -/
theorem hanja_null_iff (row : Row) (e : Entry)
    (h : mkEntry row = Except.ok e) (c : Cell)
    (hc : getCol row "Hanja/Ref." = some c) :
    (fieldVal e "hanja" = some JVal.null ↔ c = Cell.na) ∧
      (c ≠ Cell.na → fieldVal e "hanja" = some c.toJVal) := by
  obtain ⟨w, en, hj, cl, fc, n, cx, wr, wk, _, _, hhj, _, _, _, _, _, _, rfl⟩ :=
    mkEntry_ok_shape row e h
  obtain rfl : c = hj := Option.some.inj (hc.symm.trans hhj)
  have hfv : fieldVal
      [("korean", w.toJVal), ("en", en.toJVal), ("zh", JVal.null),
       ("hanja", if c.isna then JVal.null else c.toJVal),
       ("classification", cl.toJVal), ("frequency", JVal.jint n),
       ("complexity", cx.toJVal), ("wordreferencelink", wr.toJVal),
       ("wiktionarylink", wk.toJVal)] "hanja" =
      some (if c.isna then JVal.null else c.toJVal) := rfl
  rw [hfv]
  cases c with
  | na => simp [Cell.isna]
  | str s => simp [Cell.isna, Cell.toJVal]
  | int m => simp [Cell.isna, Cell.toJVal]

theorem hanja_null_iff_witness :
    (fieldVal sampleEntry "hanja" = some JVal.null ↔ Cell.na = Cell.na) ∧
      fieldVal sampleEntry2 "hanja" = some (Cell.str "安寧").toJVal :=
  ⟨(hanja_null_iff sampleRow sampleEntry rfl Cell.na rfl).1,
   (hanja_null_iff sampleRow2 sampleEntry2 rfl (Cell.str "安寧") rfl).2
     (by decide)⟩

/-- C10: for every input column other than `Hanja/Ref.` feeding an
output field, a missing-value marker in the cell is carried through to
the field unchanged, not replaced by null. -/
theorem missing_marker_passthrough (row : Row) (e : Entry)
    (h : mkEntry row = Except.ok e) (col fld : String)
    (hp : (col, fld) ∈ passthroughPairs)
    (hc : getCol row col = some Cell.na) :
    fieldVal e fld = some JVal.nan ∧ fieldVal e fld ≠ some JVal.null := by
  obtain ⟨w, en, hj, cl, fc, n, cx, wr, wk, hw, hen, _, hcl, _, _, hcx, hwr,
    hwk, rfl⟩ := mkEntry_ok_shape row e h
  simp only [passthroughPairs, List.mem_cons, List.not_mem_nil, or_false,
    Prod.mk.injEq] at hp
  rcases hp with ⟨rfl, rfl⟩ | ⟨rfl, rfl⟩ | ⟨rfl, rfl⟩ | ⟨rfl, rfl⟩ |
    ⟨rfl, rfl⟩ | ⟨rfl, rfl⟩
  · obtain rfl : w = Cell.na := Option.some.inj (hw.symm.trans hc)
    exact ⟨rfl, nan_ne_null _ rfl⟩
  · obtain rfl : en = Cell.na := Option.some.inj (hen.symm.trans hc)
    exact ⟨rfl, nan_ne_null _ rfl⟩
  · obtain rfl : cl = Cell.na := Option.some.inj (hcl.symm.trans hc)
    exact ⟨rfl, nan_ne_null _ rfl⟩
  · obtain rfl : cx = Cell.na := Option.some.inj (hcx.symm.trans hc)
    exact ⟨rfl, nan_ne_null _ rfl⟩
  · obtain rfl : wr = Cell.na := Option.some.inj (hwr.symm.trans hc)
    exact ⟨rfl, nan_ne_null _ rfl⟩
  · obtain rfl : wk = Cell.na := Option.some.inj (hwk.symm.trans hc)
    exact ⟨rfl, nan_ne_null _ rfl⟩

theorem missing_marker_passthrough_witness :
    fieldVal entryW "korean" = some JVal.nan ∧
      fieldVal entryW "korean" ≠ some JVal.null :=
  missing_marker_passthrough rowW entryW rfl "Word" "korean" (by decide) rfl

/-- C9: the run reads only the eight recognized columns, so two tables
agreeing row-by-row on them produce the same result, whatever other
columns they carry. -/
theorem unrecognized_columns_no_influence (rows1 rows2 : List Row)
    (h : List.Forall₂
      (fun r1 r2 => ∀ c ∈ expectedCols, getCol r1 c = getCol r2 c)
      rows1 rows2) :
    run (some rows1) = run (some rows2) :=
  buildResult_congr rows1 rows2 h

theorem unrecognized_columns_witness :
    run (some [sampleRowExtra]) = run (some [sampleRow]) :=
  unrecognized_columns_no_influence [sampleRowExtra] [sampleRow]
    (List.Forall₂.cons (by decide) List.Forall₂.nil)

/-- C4: every execution either maps every row and writes the full dump,
or writes nothing at all. -/
theorem all_or_nothing (inp : Option (List Row)) :
    (∃ es, run inp = Except.ok es ∧
      writeOutput inp = some (jsonDump es) ∧
      ∀ rows, inp = some rows → ∀ r ∈ rows, ∃ e, mkEntry r = Except.ok e) ∨
    ((∃ er, run inp = Except.error er) ∧ writeOutput inp = none) := by
  cases hr : run inp with
  | ok es =>
    left
    refine ⟨es, rfl, ?_, ?_⟩
    · unfold writeOutput
      rw [hr]
    · intro rows hrows r hmem
      subst hrows
      exact buildResult_ok_of_mem rows es hr r hmem
  | error er =>
    right
    refine ⟨⟨er, rfl⟩, ?_⟩
    unfold writeOutput
    rw [hr]

theorem all_or_nothing_witness :
    writeOutput (some [sampleRow]) = some (jsonDump [sampleEntry]) := by
  rcases all_or_nothing (some [sampleRow]) with ⟨es, hok, hw, _⟩ | ⟨⟨er, her⟩, _⟩
  · have h2 : Except.ok [sampleEntry] = Except.ok es :=
      (rfl : run (some [sampleRow]) = Except.ok [sampleEntry]).symm.trans hok
    injection h2 with h3
    rw [← h3] at hw
    exact hw
  · exact Except.noConfusion
      ((rfl : run (some [sampleRow]) = Except.ok [sampleEntry]).symm.trans her)

/-- C2 as stated is false: a row can have a non-numeric
`Frequency Rank` and still make the run fail with a `KeyError` rather
than a type-conversion error, because an absent column accessed earlier
raises first.  Witnessed at `rowY`, which lacks `English`. -/
theorem frequency_error_counterexample :
    getCol rowY "Frequency Rank" = some (Cell.str "oops") ∧
      Cell.pyInt (Cell.str "oops") = none ∧
      run (some [rowY]) = Except.error (Err.keyError "English") ∧
      Err.keyError "English" ≠ Err.typeError := by
  refine ⟨rfl, rfl, rfl, by decide⟩

/-- C2 amended: the `frequency` field of every record of a successful
run is an integer; a row with a present but non-numeric
`Frequency Rank` makes the run write nothing, and it fails with a
type-conversion error when the columns accessed before the conversion
are present. -/
theorem frequency_integer_amended :
    (∀ (rows : List Row) (es : List Entry),
      run (some rows) = Except.ok es →
      ∀ e ∈ es, ∃ n, fieldVal e "frequency" = some (JVal.jint n)) ∧
    (∀ (rows : List Row) (r : Row), r ∈ rows → ∀ c : Cell,
      getCol r "Frequency Rank" = some c → c.pyInt = none →
      writeOutput (some rows) = none) ∧
    (∀ (r : Row) (c w en hj cl : Cell),
      getCol r "Word" = some w → getCol r "English" = some en →
      getCol r "Hanja/Ref." = some hj →
      getCol r "Classification" = some cl →
      getCol r "Frequency Rank" = some c → c.pyInt = none →
      mkEntry r = Except.error Err.typeError) := by
  refine ⟨?_, ?_, ?_⟩
  · intro rows es h e he
    obtain ⟨r, _, hok⟩ := buildResult_mem rows es h e he
    obtain ⟨w, en, hj, cl, fc, n, cx, wr, wk, _, _, _, _, _, _, _, _, _, rfl⟩ :=
      mkEntry_ok_shape r e hok
    exact ⟨n, rfl⟩
  · intro rows r hmem c hc hpy
    cases hrun : run (some rows) with
    | ok es =>
      exfalso
      obtain ⟨e, he⟩ := buildResult_ok_of_mem rows es hrun r hmem
      obtain ⟨n, hn⟩ := mkEntry_ok_pyInt r e he c hc
      rw [hpy] at hn
      exact Option.noConfusion hn
    | error er =>
      unfold writeOutput
      rw [hrun]
  · intro r c w en hj cl hw hen hhj hcl hc hpy
    simp [mkEntry, getC, toInt, hw, hen, hhj, hcl, hc, hpy, Except.bind]

theorem frequency_integer_witness :
    (∃ n, fieldVal sampleEntry "frequency" = some (JVal.jint n)) ∧
      writeOutput (some [rowY]) = none ∧
      mkEntry rowZ = Except.error Err.typeError := by
  refine ⟨?_, ?_, ?_⟩
  · exact frequency_integer_amended.1 [sampleRow] [sampleEntry] rfl
      sampleEntry (by decide)
  · exact frequency_integer_amended.2.1 [rowY] rowY (by decide)
      (Cell.str "oops") rfl rfl
  · exact frequency_integer_amended.2.2 rowZ (Cell.str "n/a")
      (Cell.str "물") (Cell.str "water") (Cell.str "水") (Cell.str "noun")
      rfl rfl rfl rfl rfl rfl

/-- C5 as stated is false: its two "exactly when" conditions can hold
at once, yet a run fails with a single error.  `rowX` has a present,
non-numeric `Frequency Rank` — per the claim the run should fail with a
type-conversion error — but the absent `Word` column is accessed first
and the run fails with a `KeyError` instead. -/
theorem error_taxonomy_counterexample :
    getCol rowX "Frequency Rank" = some (Cell.str "abc") ∧
      Cell.pyInt (Cell.str "abc") = none ∧
      getCol rowX "Word" = none ∧
      run (some [rowX]) = Except.error (Err.keyError "Word") ∧
      Err.keyError "Word" ≠ Err.typeError := by
  refine ⟨rfl, rfl, rfl, rfl, by decide⟩

/-- C5 amended: the run fails with a file-not-found error exactly when
the input file is missing; a missing-field error only ever names one of
the eight expected columns, absent from some row; a type-conversion
error only ever comes from a present but non-numeric `Frequency Rank`;
and the first failing row determines the outcome, with no retry or
recovery. -/
theorem error_taxonomy_amended :
    run none = Except.error Err.fileNotFound ∧
    (∀ rows : List Row, run (some rows) ≠ Except.error Err.fileNotFound) ∧
    (∀ (rows : List Row) (c : String),
      run (some rows) = Except.error (Err.keyError c) →
      c ∈ expectedCols ∧ ∃ r ∈ rows, getCol r c = none) ∧
    (∀ rows : List Row, run (some rows) = Except.error Err.typeError →
      ∃ r ∈ rows, ∃ fc, getCol r "Frequency Rank" = some fc ∧
        fc.pyInt = none) ∧
    (∀ (pre rest : List Row) (r : Row) (er : Err),
      (∀ r' ∈ pre, ∃ e, mkEntry r' = Except.ok e) →
      mkEntry r = Except.error er →
      run (some (pre ++ r :: rest)) = Except.error er) := by
  refine ⟨rfl, ?_, ?_, ?_, ?_⟩
  · intro rows h
    obtain ⟨r, _, hr⟩ := buildResult_error rows _ h
    rcases mkEntry_error_cases r _ hr with ⟨c, hc, _, _⟩ | ⟨hc, _⟩
    · exact Err.noConfusion hc
    · exact Err.noConfusion hc
  · intro rows c h
    obtain ⟨r, hmem, hr⟩ := buildResult_error rows _ h
    rcases mkEntry_error_cases r _ hr with ⟨c', hc', hcm, hcol⟩ | ⟨hc, _⟩
    · injection hc' with h3
      subst h3
      exact ⟨hcm, r, hmem, hcol⟩
    · exact Err.noConfusion hc
  · intro rows h
    obtain ⟨r, hmem, hr⟩ := buildResult_error rows _ h
    rcases mkEntry_error_cases r _ hr with ⟨c, hc, _, _⟩ | ⟨_, fc, hfc, hpy⟩
    · exact Err.noConfusion hc
    · exact ⟨r, hmem, fc, hfc, hpy⟩
  · intro pre rest r er h1 h2
    exact buildResult_first_error pre rest r er h1 h2

theorem error_taxonomy_witness :
    run (some (([] : List Row) ++ rowX :: [sampleRow])) =
      Except.error (Err.keyError "Word") :=
  error_taxonomy_amended.2.2.2.2 [] [sampleRow] rowX (Err.keyError "Word")
    (fun r' hr' => absurd hr' (List.not_mem_nil r')) rfl

/-- C7: a successful run writes exactly the serialized record list: a
single JSON array whose objects carry the keys in insertion order
korean, en, zh, hanja, classification, frequency, complexity,
wordreferencelink, wiktionarylink; non-ASCII characters survive the
string encoder literally; and on the sample table the dump is exactly
the 2-space-indented text `sampleJson`. -/
theorem output_format :
    (∀ (rows : List Row) (es : List Entry),
      run (some rows) = Except.ok es →
      writeOutput (some rows) = some (jsonDump es) ∧
      ∀ e ∈ es, e.map Prod.fst = keyOrder) ∧
    (∀ (s : String) (c : Char), c ∈ s.data → 128 ≤ c.toNat →
      c ∈ (encodeString s).data) ∧
    writeOutput (some [sampleRow]) = some sampleJson := by
  refine ⟨?_, ?_, ?_⟩
  · intro rows es h
    constructor
    · unfold writeOutput
      rw [h]
    · intro e he
      obtain ⟨r, _, hok⟩ := buildResult_mem rows es h e he
      obtain ⟨w, en, hj, cl, fc, n, cx, wr, wk, _, _, _, _, _, _, _, _, _,
        rfl⟩ := mkEntry_ok_shape r e hok
      rfl
  · exact encodeString_mem
  · rfl

theorem output_format_witness :
    sampleEntry.map Prod.fst = keyOrder ∧
      '안' ∈ (encodeString "안녕").data := by
  constructor
  · exact (output_format.1 [sampleRow] [sampleEntry] rfl).2 sampleEntry
      (by decide)
  · exact output_format.2.1 "안녕" '안' (by decide) (by decide)
